import Mathlib

/-!
Shallow embedding of the PDF-RAG indexing and retrieval pipeline
(`utils/chunking.py`, `utils/embeddings.py`, `utils/pinecone_utils.py`,
`app.py`, `indexer.py`).

Modelling conventions:
* Python `int` is `Int`; non-negative counters are `Nat`.
* Python `float` similarity scores are `ℚ` (exact rationals).
* `str.strip()` is `pyStrip`; list slicing `l[a:b]` is `pySlice`, with
  Python's negative-index and clamping semantics.
* The external tiktoken encoding is abstracted as a `Tokenizer` record
  (`encode`/`decode`); the concrete `cl100k_base` vocabulary is external
  data not present in the repository.
* The external embedding service and vector store are explicit function
  parameters / an environment record; effects (network requests, writes)
  are reified as returned values so claims about them can be stated.
* The `while` loop of `split_text_into_chunks` is embedded as a small-step
  function `chunkStep` plus a fuel-indexed runner `chunkLoopFuel`;
  `none` means the loop did not finish within the given fuel.
* `uuid.uuid5` is embedded concretely: a full SHA-1 implementation over
  byte lists, the DNS namespace bytes, and the version/variant bit fixup.
-/

/-- Python `str.strip()` with no arguments: remove leading and trailing
whitespace.  Modelled on the character list of the string. -/
def pyStrip (s : String) : String :=
  String.mk (((s.data.dropWhile Char.isWhitespace).reverse.dropWhile Char.isWhitespace).reverse)

/-- Clamp a Python slice bound `a` for a list of length `n` into `[0, n]`:
negative indices count from the end of the list. -/
def pySliceClamp (n a : Int) : Nat :=
  if a < 0 then (n + a).toNat else min a.toNat n.toNat

/-- Python list slicing `l[a:b]` for `int` bounds (step 1). -/
def pySlice {α : Type} (l : List α) (a b : Int) : List α :=
  (l.take (pySliceClamp (l.length : Int) b)).drop (pySliceClamp (l.length : Int) a)

/-- Structural worker for `batchesBy`: the first `Nat` is a step counter
that stays at least the list length, so the `0, _ :: _` case is never
reached from `batchesBy`. -/
def batchesByGo {α : Type} (k : Nat) : Nat → List α → List (List α)
  | _, [] => []
  | 0, _ :: _ => []
  | fuel + 1, a :: l =>
    if k = 0 then []
    else (a :: l).take k :: batchesByGo k fuel ((a :: l).drop k)

/-- Partition a list into consecutive batches of `k` elements, mirroring
`for i in range(0, len(l), k): l[i:i+k]`; the final batch may be shorter.
`k = 0` (which would raise `ValueError` in Python and never occurs at the
call sites, which pass the constant 100) returns `[]`. -/
def batchesBy {α : Type} (k : Nat) (l : List α) : List (List α) :=
  batchesByGo k l.length l

/-- Structural worker for `pyReplace`, on the character list: replace
each non-overlapping occurrence of `pattern` (non-empty at the call
sites) left to right.  The `Nat` counter stays at least the list
length. -/
def pyReplaceGo (pattern repl : List Char) : Nat → List Char → List Char
  | _, [] => []
  | 0, l => l
  | fuel + 1, c :: rest =>
    if (c :: rest).take pattern.length = pattern ∧ pattern ≠ [] then
      repl ++ pyReplaceGo pattern repl fuel ((c :: rest).drop pattern.length)
    else
      c :: pyReplaceGo pattern repl fuel rest

/-- Python `s.replace(pattern, repl)` for a non-empty `pattern`: replace
all non-overlapping occurrences left to right.  (The only call site uses
the pattern `".pdf"`; Python's behaviour for an empty pattern is not
modelled.) -/
def pyReplace (s pattern repl : String) : String :=
  String.mk (pyReplaceGo pattern.data repl.data s.data.length s.data)

/-! ### SHA-1 and `uuid.uuid5`, for `generate_chunk_id` -/

/-- UTF-8 encoding of one character, as a list of byte values. -/
def utf8Bytes (c : Char) : List Nat :=
  let n := c.toNat
  if n < 128 then [n]
  else if n < 2048 then [192 ||| (n >>> 6), 128 ||| (n &&& 63)]
  else if n < 65536 then
    [224 ||| (n >>> 12), 128 ||| ((n >>> 6) &&& 63), 128 ||| (n &&& 63)]
  else
    [240 ||| (n >>> 18), 128 ||| ((n >>> 12) &&& 63),
     128 ||| ((n >>> 6) &&& 63), 128 ||| (n &&& 63)]

/-- UTF-8 encoding of a string (Python `name.encode('utf-8')`). -/
def utf8Encode (s : String) : List Nat :=
  s.data.flatMap utf8Bytes

/-- Truncation to 32 bits. -/
def m32 (x : Nat) : Nat := x % 4294967296

/-- 32-bit left rotation by `k`. -/
def rotl32 (k x : Nat) : Nat := m32 ((x <<< k) ||| (x >>> (32 - k)))

/-- Big-endian packing of a list of bytes into one machine word. -/
def beWord (bs : List Nat) : Nat :=
  bs.foldl (fun acc b => (acc <<< 8) ||| b) 0

/-- Big-endian byte decomposition of a 32-bit word. -/
def be32 (n : Nat) : List Nat :=
  [(n >>> 24) &&& 255, (n >>> 16) &&& 255, (n >>> 8) &&& 255, n &&& 255]

/-- Big-endian byte decomposition of a 64-bit word. -/
def be64 (n : Nat) : List Nat :=
  [(n >>> 56) &&& 255, (n >>> 48) &&& 255, (n >>> 40) &&& 255, (n >>> 32) &&& 255,
   (n >>> 24) &&& 255, (n >>> 16) &&& 255, (n >>> 8) &&& 255, n &&& 255]

/-- SHA-1 message schedule: extend the 16 block words by `count` more words,
each the 1-bit left rotation of the XOR of the words 3, 8, 14 and 16
positions back. -/
def sha1Extend (w : List Nat) : Nat → List Nat
  | 0 => w
  | count + 1 =>
    let prev := sha1Extend w count
    let at3 := prev.getD (prev.length - 3) 0
    let at8 := prev.getD (prev.length - 8) 0
    let at14 := prev.getD (prev.length - 14) 0
    let at16 := prev.getD (prev.length - 16) 0
    prev ++ [rotl32 1 (((at3 ^^^ at8) ^^^ at14) ^^^ at16)]

/-- Running state of SHA-1 (five 32-bit words). -/
structure Sha1State where
  h0 : Nat
  h1 : Nat
  h2 : Nat
  h3 : Nat
  h4 : Nat

/-- One SHA-1 round: round index `i`, schedule word `w`, working
variables `a b c d e`. -/
def sha1Round (i w a b c d e : Nat) : Nat × Nat × Nat × Nat × Nat :=
  let f :=
    if i < 20 then (b &&& c) ||| ((b ^^^ 4294967295) &&& d)
    else if i < 40 then (b ^^^ c) ^^^ d
    else if i < 60 then ((b &&& c) ||| (b &&& d)) ||| (c &&& d)
    else (b ^^^ c) ^^^ d
  let k :=
    if i < 20 then 1518500249
    else if i < 40 then 1859775393
    else if i < 60 then 2400959708
    else 3395469782
  let temp := m32 (rotl32 5 a + f + e + k + w)
  (temp, a, rotl32 30 b, c, d)

/-- Process one 64-byte SHA-1 block. -/
def sha1Block (st : Sha1State) (blk : List Nat) : Sha1State :=
  let ws := sha1Extend ((batchesBy 4 blk).map beWord) 64
  let r := ws.enum.foldl
    (fun (t : Nat × Nat × Nat × Nat × Nat) (iw : Nat × Nat) =>
      sha1Round iw.1 iw.2 t.1 t.2.1 t.2.2.1 t.2.2.2.1 t.2.2.2.2)
    (st.h0, st.h1, st.h2, st.h3, st.h4)
  ⟨m32 (st.h0 + r.1), m32 (st.h1 + r.2.1), m32 (st.h2 + r.2.2.1),
   m32 (st.h3 + r.2.2.2.1), m32 (st.h4 + r.2.2.2.2)⟩

/-- SHA-1 padding: append `0x80`, zero bytes up to 56 mod 64, then the
64-bit big-endian bit length. -/
def sha1Pad (msg : List Nat) : List Nat :=
  let z := (119 - msg.length % 64) % 64
  msg ++ [128] ++ List.replicate z 0 ++ be64 (8 * msg.length)

/-- SHA-1 digest of a byte list, as a 20-byte list. -/
def sha1 (msg : List Nat) : List Nat :=
  let st := (batchesBy 64 (sha1Pad msg)).foldl sha1Block
    ⟨1732584193, 4023233417, 2562383102, 271733878, 3285377520⟩
  be32 st.h0 ++ be32 st.h1 ++ be32 st.h2 ++ be32 st.h3 ++ be32 st.h4

/-- The 16 bytes of `uuid.NAMESPACE_DNS`
(6ba7b810-9dad-11d1-80b4-00c04fd430c8). -/
def NAMESPACE_DNS : List Nat :=
  [107, 167, 184, 16, 157, 173, 17, 209, 128, 180, 0, 192, 79, 212, 48, 200]

/-- The 16 bytes of `uuid.uuid5(uuid.NAMESPACE_DNS, name)`: the first 16
SHA-1 digest bytes of namespace plus UTF-8 name, with the version nibble
of byte 6 set to 5 and the variant bits of byte 8 set to binary 10. -/
def uuid5Bytes (name : String) : List Nat :=
  ((sha1 (NAMESPACE_DNS ++ utf8Encode name)).take 16).enum.map fun p =>
    if p.1 = 6 then (p.2 &&& 15) ||| 80
    else if p.1 = 8 then (p.2 &&& 63) ||| 128
    else p.2

/-- One lowercase hexadecimal digit. -/
def hexDigit (n : Nat) : Char :=
  if n < 10 then Char.ofNat (48 + n) else Char.ofNat (87 + n)

/-- Lowercase hexadecimal rendering of a byte list (Python `bytes.hex()`). -/
def bytesToHex (bs : List Nat) : String :=
  String.mk (bs.flatMap fun b => [hexDigit (b >>> 4), hexDigit (b &&& 15)])

/-- `uuid.uuid5(uuid.NAMESPACE_DNS, name).hex[:8]`. -/
def uuid5hex8 (name : String) : String :=
  String.mk ((bytesToHex (uuid5Bytes name)).data.take 8)

/-! ### `utils/pdf_loader.py` data model -/

/-- Text content of one PDF page (`PageContent`). -/
structure PageContent where
  filename : String
  page_number : Int
  text : String
deriving DecidableEq

/-- A loaded PDF document (`PDFDocument`). -/
structure PDFDocument where
  filename : String
  pages : List PageContent
deriving DecidableEq

/-! ### `utils/chunking.py` -/

/-- A chunk of text with metadata for indexing (`TextChunk`). -/
structure TextChunk where
  id : String
  text : String
  source_pdf : String
  page : Int
  token_count : Nat
deriving DecidableEq, Repr

/-- Target chunk size in tokens (`CHUNK_SIZE`). -/
def CHUNK_SIZE : Int := 800

/-- Overlap between chunks for context continuity (`CHUNK_OVERLAP`). -/
def CHUNK_OVERLAP : Int := 100

/-- Encoding used for token counting (`ENCODING_NAME`). -/
def ENCODING_NAME : String := "cl100k_base"

/-- The external tiktoken encoding, abstracted: `encode` turns a string
into tokens and `decode` turns tokens back into a string. -/
structure Tokenizer (τ : Type) where
  encode : String → List τ
  decode : List τ → String

/-- `count_tokens`: length of the tokenizer encoding of `text`. -/
def count_tokens {τ : Type} (tok : Tokenizer τ) (text : String) : Nat :=
  (tok.encode text).length

/-- `generate_chunk_id`: deterministic id built from the source PDF name,
the page number and the chunk index, with a `uuid5` suffix of the
underscore-joined base string.  Note the suffix depends on the same three
fields only, not on the chunk text. -/
def generate_chunk_id (source_pdf : String) (page : Int) (chunk_index : Nat) : String :=
  let base := source_pdf ++ "_" ++ toString page ++ "_" ++ toString chunk_index
  let suffix := uuid5hex8 base
  (pyReplace source_pdf ".pdf" "") ++ "__p" ++ toString page ++ "__c" ++
    toString chunk_index ++ "__" ++ suffix

/-- Mutable state of the `while` loop in `split_text_into_chunks`:
the window start, the next chunk index, and the chunks accumulated so
far (in append order). -/
structure ChunkLoopState where
  start_idx : Int
  chunk_index : Nat
  chunks : List TextChunk
deriving Repr

/-- One execution of the `while` loop of `split_text_into_chunks`
(lines 95-118): if the loop condition `start_idx < total_tokens` fails,
exit with the accumulated chunks (`Sum.inr`); otherwise slice the window,
decode and strip it, append a chunk when the text is non-empty, advance
`start_idx` to `end_idx - chunk_overlap`, and break (`Sum.inr`) exactly
when the new start is `≥ end_idx`. -/
def chunkStep {τ : Type} (tok : Tokenizer τ) (tokens : List τ) (source_pdf : String)
    (page : Int) (chunk_size chunk_overlap : Int) (s : ChunkLoopState) :
    ChunkLoopState ⊕ List TextChunk :=
  if s.start_idx < (tokens.length : Int) then
    let end_idx : Int := min (s.start_idx + chunk_size) (tokens.length : Int)
    let chunk_tokens := pySlice tokens s.start_idx end_idx
    let chunk_text := pyStrip (tok.decode chunk_tokens)
    let s' :=
      if chunk_text ≠ "" then
        { s with
          chunks := s.chunks ++
            [{ id := generate_chunk_id source_pdf page s.chunk_index,
               text := chunk_text, source_pdf := source_pdf, page := page,
               token_count := chunk_tokens.length }],
          chunk_index := s.chunk_index + 1 }
      else s
    let start' := end_idx - chunk_overlap
    if start' ≥ end_idx then Sum.inr s'.chunks
    else Sum.inl { s' with start_idx := start' }
  else Sum.inr s.chunks

/-- Fuel-indexed runner for the loop: `none` means the loop did not
finish within `fuel` steps. -/
def chunkLoopFuel {τ : Type} (tok : Tokenizer τ) (tokens : List τ) (source_pdf : String)
    (page : Int) (chunk_size chunk_overlap : Int) :
    Nat → ChunkLoopState → Option (List TextChunk)
  | 0, _ => none
  | fuel + 1, s =>
    match chunkStep tok tokens source_pdf page chunk_size chunk_overlap s with
    | Sum.inr r => some r
    | Sum.inl s' => chunkLoopFuel tok tokens source_pdf page chunk_size chunk_overlap fuel s'

/-- Iterate `chunkStep` a fixed number of times, for observing the loop's
intermediate states. -/
def chunkIter {τ : Type} (tok : Tokenizer τ) (tokens : List τ) (source_pdf : String)
    (page : Int) (chunk_size chunk_overlap : Int) :
    Nat → ChunkLoopState ⊕ List TextChunk → ChunkLoopState ⊕ List TextChunk
  | 0, x => x
  | _ + 1, Sum.inr r => Sum.inr r
  | n + 1, Sum.inl s =>
    chunkIter tok tokens source_pdf page chunk_size chunk_overlap n
      (chunkStep tok tokens source_pdf page chunk_size chunk_overlap s)

/-- `split_text_into_chunks`: empty-after-strip text yields `[]`; a text
of at most `chunk_size` tokens yields one chunk of the whole stripped
text; otherwise the sliding-window loop runs (with `fuel` as the
non-termination bound of the embedding). -/
def split_text_into_chunks (fuel : Nat) {τ : Type} (tok : Tokenizer τ)
    (text source_pdf : String) (page : Int) (chunk_size chunk_overlap : Int) :
    Option (List TextChunk) :=
  if pyStrip text = "" then some []
  else
    let tokens := tok.encode text
    let total_tokens := tokens.length
    if (total_tokens : Int) ≤ chunk_size then
      some [{ id := generate_chunk_id source_pdf page 0, text := pyStrip text,
              source_pdf := source_pdf, page := page, token_count := total_tokens }]
    else
      chunkLoopFuel tok tokens source_pdf page chunk_size chunk_overlap fuel
        ⟨0, 0, []⟩

/-- `chunk_page`: chunk one page with the default configuration. -/
def chunk_page (fuel : Nat) {τ : Type} (tok : Tokenizer τ) (page : PageContent) :
    Option (List TextChunk) :=
  split_text_into_chunks fuel tok page.text page.filename page.page_number
    CHUNK_SIZE CHUNK_OVERLAP

/-- `chunk_document`: concatenate the chunks of all pages of a document. -/
def chunk_document (fuel : Nat) {τ : Type} (tok : Tokenizer τ) (document : PDFDocument) :
    Option (List TextChunk) :=
  document.pages.foldl
    (fun acc p => do
      let a ← acc
      let b ← chunk_page fuel tok p
      pure (a ++ b))
    (some [])

/-- `chunk_documents`: concatenate the chunks of all documents. -/
def chunk_documents (fuel : Nat) {τ : Type} (tok : Tokenizer τ)
    (documents : List PDFDocument) : Option (List TextChunk) :=
  documents.foldl
    (fun acc d => do
      let a ← acc
      let b ← chunk_document fuel tok d
      pure (a ++ b))
    (some [])

/-! ### `utils/embeddings.py` -/

/-- Batch size for embedding generation (`BATCH_SIZE`). -/
def BATCH_SIZE : Nat := 100

/-- Embedding vector dimensionality (`EMBEDDING_DIMENSIONS`). -/
def EMBEDDING_DIMENSIONS : Nat := 1536

/-- `sorted(response.data, key=lambda x: x.index)`: a response item is a
pair of its service-provided index and its embedding; Python's stable
sort by key is modelled as insertion sort on the first component. -/
def sortByIndex {E : Type} (l : List (Nat × E)) : List (Nat × E) :=
  List.insertionSort (fun a b => a.1 ≤ b.1) l

/-- `generate_embeddings_batch`: slice the input into batches of
`BATCH_SIZE`, issue one request per batch to the external `service`
(whose response items carry a per-item index), re-sort each batch's
response by that index, and concatenate in batch order. -/
def generate_embeddings_batch {E : Type} (service : List String → List (Nat × E))
    (texts : List String) : List E :=
  (batchesBy BATCH_SIZE texts).foldl
    (fun all_embeddings batch =>
      all_embeddings ++ (sortByIndex (service batch)).map Prod.snd)
    []

/-- `generate_chunk_embeddings`: embed the chunk texts and zip the chunks
with their embeddings. -/
def generate_chunk_embeddings {E : Type} (service : List String → List (Nat × E))
    (chunks : List TextChunk) : List (TextChunk × E) :=
  if chunks = [] then []
  else chunks.zip (generate_embeddings_batch service (chunks.map (fun c => c.text)))

/-! ### `utils/pinecone_utils.py` -/

/-- Batch size for upserting vectors (`UPSERT_BATCH_SIZE`). -/
def UPSERT_BATCH_SIZE : Nat := 100

/-- A chunk retrieved from the vector store with its similarity score
(`RetrievedChunk`). -/
structure RetrievedChunk where
  id : String
  text : String
  source_pdf : String
  page : Int
  score : ℚ
deriving DecidableEq

/-- Metadata stored with an upserted vector. -/
structure VectorMetadata where
  text : String
  source_pdf : String
  page : Int
deriving DecidableEq, Repr

/-- One vector entry sent to the store by `upsert_chunks`. -/
structure PineconeVector where
  id : String
  values : List ℚ
  metadata : VectorMetadata
deriving DecidableEq, Repr

/-- `upsert_chunks`: raise `ValueError` when the chunk and embedding
counts differ (before any write); otherwise build the vector entries,
send them in batches of `UPSERT_BATCH_SIZE`, and return the total count
together with the list of batches actually written (the reified write
effect; the error branch performs no write). -/
def upsert_chunks (chunks : List TextChunk) (embeddings : List (List ℚ)) :
    Except String (Nat × List (List PineconeVector)) :=
  if chunks.length ≠ embeddings.length then
    Except.error "Number of chunks must match number of embeddings"
  else
    let vectors := (chunks.zip embeddings).map fun p =>
      { id := p.1.id, values := p.2,
        metadata := { text := p.1.text, source_pdf := p.1.source_pdf, page := p.1.page } }
    let batches := batchesBy UPSERT_BATCH_SIZE vectors
    Except.ok (batches.foldl (fun total_upserted batch => total_upserted + batch.length) 0,
               batches)

/-! ### `app.py` -/

/-- Number of retrieval results requested (`TOP_K_RESULTS`). -/
def TOP_K_RESULTS : Nat := 6

/-- Retrieval quality threshold (`SIMILARITY_THRESHOLD = 0.3`). -/
def SIMILARITY_THRESHOLD : ℚ := 3 / 10

/-- `check_retrieval_quality`: `False` on an empty result list, else
compare the best (maximum) score against the threshold with `>=`.
Python's `max` over a non-empty sequence is a left fold of `max` from the
first element. -/
def check_retrieval_quality (chunks : List RetrievedChunk) : Bool :=
  match chunks with
  | [] => false
  | c :: rest =>
    decide (rest.foldl (fun best x => max best x.score) c.score ≥ SIMILARITY_THRESHOLD)

/-! ### `indexer.py` -/

/-- Reified side effects of one indexing run: how many embedding-service
requests and how many vector-store write (upsert) requests were issued. -/
structure IndexTrace where
  embedRequests : Nat
  upsertRequests : Nat
deriving DecidableEq, Repr

/-- Environment of `run_indexing`: credential presence, the store's
emptiness answer, the tokenizer, the embedding service, and the documents
that `load_all_pdfs` returns. -/
structure IndexerEnv (τ : Type) where
  pineconeKeySet : Bool
  openrouterKeySet : Bool
  indexEmpty : Bool
  tok : Tokenizer τ
  embedService : List String → List (Nat × List ℚ)
  documents : List PDFDocument

/-- `run_indexing`: initialize clients (configuration errors raise),
skip when the index is non-empty and `force` is unset, no-op on empty
document or chunk lists, otherwise chunk, embed and upsert.  The outer
`Option` is the fuel bound of the chunking loop (`none` = the run never
finishes); the `Except` layer is a raised exception; the `Bool` is the
source's return value, paired with the reified effect trace. -/
def run_indexing {τ : Type} (fuel : Nat) (env : IndexerEnv τ) (force : Bool) :
    Option (Except String (Bool × IndexTrace)) :=
  if env.pineconeKeySet = false then
    some (Except.error "PINECONE_API_KEY environment variable is not set")
  else if env.openrouterKeySet = false then
    some (Except.error "OPENROUTER_API_KEY environment variable is not set")
  else if force = false ∧ env.indexEmpty = false then
    some (Except.ok (false, ⟨0, 0⟩))
  else if env.documents = [] then
    some (Except.ok (false, ⟨0, 0⟩))
  else
    match chunk_documents fuel env.tok env.documents with
    | none => none
    | some chunks =>
      if chunks = [] then some (Except.ok (false, ⟨0, 0⟩))
      else
        let pairs := generate_chunk_embeddings env.embedService chunks
        let indexed_chunks := pairs.map Prod.fst
        let embeddings := pairs.map Prod.snd
        let embedCalls := (batchesBy BATCH_SIZE (chunks.map (fun c => c.text))).length
        match upsert_chunks indexed_chunks embeddings with
        | Except.error e => some (Except.error e)
        | Except.ok (_, batches) =>
          some (Except.ok (true, ⟨embedCalls, batches.length⟩))

/-! ### Concrete instances used by witnesses and counterexamples -/

/-- A concrete tokenizer instance for closed evaluations: every character
is one token.  It satisfies the `Tokenizer` interface and, like the real
`cl100k_base` vocabulary, assigns tokens to whitespace. -/
def charTok : Tokenizer Char :=
  { encode := fun s => s.data, decode := fun l => String.mk l }

/-- A concrete page text of exactly 1650 tokens under `charTok`. -/
def demoText : String := String.mk (List.replicate 1650 'a')

/-! ### Shared lemmas about the chunking loop -/

/-- With a positive overlap the loop's `break` guard
`start_idx >= end_idx` can never fire, and the new window start
`end_idx - chunk_overlap` always stays below `total_tokens`, so the loop
body runs forever: no fuel suffices. -/
theorem chunkLoopFuel_none {τ : Type} (tok : Tokenizer τ) (tokens : List τ)
    (src : String) (pg : Int) (cs ov : Int) (hov : 0 < ov) :
    ∀ fuel s, s.start_idx < (tokens.length : Int) →
      chunkLoopFuel tok tokens src pg cs ov fuel s = none := by
  intro fuel
  induction fuel with
  | zero => intro s _; rfl
  | succ n ih =>
    intro s hs
    have hend : min (s.start_idx + cs) (tokens.length : Int) ≤ (tokens.length : Int) :=
      min_le_right _ _
    obtain ⟨s', heq, hlt⟩ : ∃ s', chunkStep tok tokens src pg cs ov s = Sum.inl s' ∧
        s'.start_idx < (tokens.length : Int) := by
      unfold chunkStep
      rw [if_pos hs]
      dsimp only
      rw [if_neg (by omega :
        ¬ min (s.start_idx + cs) (tokens.length : Int) - ov ≥
          min (s.start_idx + cs) (tokens.length : Int))]
      exact ⟨_, rfl, by dsimp only; omega⟩
    unfold chunkLoopFuel
    rw [heq]
    exact ih s' hlt

/-- Run the invariant `Q` on loop states through `chunkStep` to the
invariant `R` on the returned chunk list. -/
theorem chunkLoopFuel_inv {τ : Type} (tok : Tokenizer τ) (tokens : List τ)
    (src : String) (pg : Int) (cs ov : Int)
    (Q : ChunkLoopState → Prop) (R : List TextChunk → Prop)
    (hstep : ∀ s, Q s → Sum.elim Q R (chunkStep tok tokens src pg cs ov s)) :
    ∀ fuel s l, Q s → chunkLoopFuel tok tokens src pg cs ov fuel s = some l → R l := by
  intro fuel
  induction fuel with
  | zero => intro s l _ h; exact absurd h (by simp [chunkLoopFuel])
  | succ n ih =>
    intro s l hQ hrun
    unfold chunkLoopFuel at hrun
    have hs := hstep s hQ
    cases heq : chunkStep tok tokens src pg cs ov s with
    | inl s' =>
      rw [heq] at hrun hs
      exact ih s' l hs hrun
    | inr r =>
      rw [heq] at hrun hs
      cases hrun
      exact hs

/-! ### Claims C1 and C2: the sliding-window loop never terminates -/

/-- Claim C1 (refuted; the code is the bug).  The claim states that for
every text whose token count exceeds `chunk_size`, with
`0 < chunk_overlap < chunk_size`, `split_text_into_chunks` terminates
because the loop stops as soon as the window's start no longer advances.
In fact the break guard `start_idx >= end_idx` is equivalent to
`chunk_overlap <= 0`, so with a positive overlap the loop never exits:
for every fuel bound the embedded loop is still running (`none`). -/
theorem c1_loop_never_terminates {τ : Type} (tok : Tokenizer τ)
    (text src : String) (pg : Int) (cs ov : Int)
    (hov : 0 < ov) (hoc : ov < cs) (htot : cs < ((tok.encode text).length : Int))
    (hst : pyStrip text ≠ "") :
    ∀ fuel, split_text_into_chunks fuel tok text src pg cs ov = none := by
  intro fuel
  unfold split_text_into_chunks
  rw [if_neg hst]
  dsimp only
  rw [if_neg (not_le.mpr htot)]
  exact chunkLoopFuel_none tok (tok.encode text) src pg cs ov hov fuel ⟨0, 0, []⟩
    (by dsimp only; omega)

/-- Claim C1, witness: a concrete 3-token text with `chunk_size = 2` and
`chunk_overlap = 1` satisfies all the claim's hypotheses, and the code
never returns on it. -/
theorem c1_loop_never_terminates_witness :
    (0 : Int) < 1 ∧ (1 : Int) < 2 ∧ (2 : Int) < ((charTok.encode "aaa").length : Int) ∧
      pyStrip "aaa" ≠ "" ∧
      split_text_into_chunks 7 charTok "aaa" "d.pdf" 1 2 1 = none :=
  ⟨by decide, by decide, by decide, by decide,
    c1_loop_never_terminates charTok "aaa" "d.pdf" 1 2 1 (by decide) (by decide)
      (by decide) (by decide) 7⟩

/-- Claim C2 (refuted; the code is the bug).  The claim states that a
page text of exactly 1650 tokens with chunk size 800 and overlap 100
yields exactly 3 chunks of 800, 800 and 250 tokens.  In fact the loop
never returns on such a text: after windows [0,800), [700,1500),
[1400,1650) and [1550,1650) the start sticks at 1550 forever, so for
every fuel bound the embedded loop is still running (`none`). -/
theorem c2_scenario_never_returns {τ : Type} (tok : Tokenizer τ)
    (text src : String) (pg : Int)
    (hlen : (tok.encode text).length = 1650) (hst : pyStrip text ≠ "") :
    ∀ fuel, split_text_into_chunks fuel tok text src pg 800 100 = none :=
  c1_loop_never_terminates tok text src pg 800 100 (by omega) (by omega)
    (by rw [hlen]; omega) hst

set_option maxRecDepth 80000 in
/-- Claim C2, witness: a concrete text of exactly 1650 tokens under the
concrete tokenizer; the code never returns on it. -/
theorem c2_scenario_never_returns_witness :
    (charTok.encode demoText).length = 1650 ∧ pyStrip demoText ≠ "" ∧
      split_text_into_chunks 10 charTok demoText "doc.pdf" 2 800 100 = none :=
  ⟨by decide, by decide,
    c2_scenario_never_returns charTok demoText "doc.pdf" 2 (by decide) (by decide) 10⟩

set_option maxRecDepth 80000 in
/-- Claim C4 (refuted; the code is the bug).  The claim states that every
emitted chunk has `token_count <= chunk_size` and every non-final chunk
of a multi-chunk page has `token_count` exactly `chunk_size`.  On a
1650-token page with the default configuration the function never
returns at all (first conjunct), and the loop's accumulated chunk
sequence after four iterations is [800, 800, 250, 100]: the 250-token
remainder chunk is followed by a further 100-token window chunk, so it is
non-final with a token count different from the chunk size (remaining
conjuncts). -/
theorem c4_size_bound_violated :
    (∀ fuel, split_text_into_chunks fuel charTok demoText "doc.pdf" 2 800 100 = none) ∧
    (chunkIter charTok (charTok.encode demoText) "doc.pdf" 2 800 100 4
        (Sum.inl ⟨0, 0, []⟩)).elim
      (fun s => s.chunks.map fun c => c.token_count)
      (fun r => r.map fun c => c.token_count) = [800, 800, 250, 100] ∧
    (250 : Nat) ≠ 800 :=
  ⟨c2_scenario_never_returns charTok demoText "doc.pdf" 2 (by decide) (by decide),
   by decide, by decide⟩

/-- Case analysis of one loop step.  Writing `w` for the current window
`pySlice tokens start_idx (min (start_idx + cs) total)` and `c` for the
chunk built from it, a step either exits with the accumulated chunks
unchanged, exits after appending `c` (only when the stripped decoded
window is non-empty), continues with chunks and chunk index unchanged
(only when it is empty), or continues after appending `c` and
incrementing the chunk index (only when it is non-empty). -/
theorem chunkStep_cases {τ : Type} (tok : Tokenizer τ) (tokens : List τ)
    (src : String) (pg : Int) (cs ov : Int) (s : ChunkLoopState) :
    chunkStep tok tokens src pg cs ov s = Sum.inr s.chunks ∨
    (chunkStep tok tokens src pg cs ov s = Sum.inr (s.chunks ++
        [{ id := generate_chunk_id src pg s.chunk_index,
           text := pyStrip (tok.decode (pySlice tokens s.start_idx
             (min (s.start_idx + cs) (tokens.length : Int)))),
           source_pdf := src, page := pg,
           token_count := (pySlice tokens s.start_idx
             (min (s.start_idx + cs) (tokens.length : Int))).length }]) ∧
      pyStrip (tok.decode (pySlice tokens s.start_idx
        (min (s.start_idx + cs) (tokens.length : Int)))) ≠ "") ∨
    (∃ s', chunkStep tok tokens src pg cs ov s = Sum.inl s' ∧
      s'.chunks = s.chunks ∧ s'.chunk_index = s.chunk_index ∧
      pyStrip (tok.decode (pySlice tokens s.start_idx
        (min (s.start_idx + cs) (tokens.length : Int)))) = "") ∨
    (∃ s', chunkStep tok tokens src pg cs ov s = Sum.inl s' ∧
      s'.chunks = s.chunks ++
        [{ id := generate_chunk_id src pg s.chunk_index,
           text := pyStrip (tok.decode (pySlice tokens s.start_idx
             (min (s.start_idx + cs) (tokens.length : Int)))),
           source_pdf := src, page := pg,
           token_count := (pySlice tokens s.start_idx
             (min (s.start_idx + cs) (tokens.length : Int))).length }] ∧
      s'.chunk_index = s.chunk_index + 1 ∧
      pyStrip (tok.decode (pySlice tokens s.start_idx
        (min (s.start_idx + cs) (tokens.length : Int)))) ≠ "") := by
  unfold chunkStep
  by_cases hcond : s.start_idx < (tokens.length : Int)
  · rw [if_pos hcond]
    dsimp only
    by_cases htext : pyStrip (tok.decode (pySlice tokens s.start_idx
        (min (s.start_idx + cs) (tokens.length : Int)))) ≠ ""
    · rw [if_pos htext]
      by_cases hbr : min (s.start_idx + cs) (tokens.length : Int) - ov ≥
          min (s.start_idx + cs) (tokens.length : Int)
      · rw [if_pos hbr]
        exact Or.inr (Or.inl ⟨rfl, htext⟩)
      · rw [if_neg hbr]
        exact Or.inr (Or.inr (Or.inr ⟨_, rfl, rfl, rfl, htext⟩))
    · rw [if_neg htext]
      rw [not_not] at htext
      by_cases hbr : min (s.start_idx + cs) (tokens.length : Int) - ov ≥
          min (s.start_idx + cs) (tokens.length : Int)
      · rw [if_pos hbr]
        exact Or.inl rfl
      · rw [if_neg hbr]
        exact Or.inr (Or.inr (Or.inl ⟨_, rfl, rfl, rfl, htext⟩))
  · rw [if_neg hcond]
    exact Or.inl rfl

/-- One loop step preserves "all accumulated chunks have non-empty text":
a chunk is only appended under the `if chunk_text` guard. -/
theorem chunkStep_text_nonempty {τ : Type} (tok : Tokenizer τ) (tokens : List τ)
    (src : String) (pg : Int) (cs ov : Int) :
    ∀ s : ChunkLoopState, (∀ c ∈ s.chunks, c.text ≠ "") →
      Sum.elim (fun s' => ∀ c ∈ s'.chunks, c.text ≠ "")
        (fun r => ∀ c ∈ r, c.text ≠ "")
        (chunkStep tok tokens src pg cs ov s) := by
  intro s hQ
  rcases chunkStep_cases tok tokens src pg cs ov s with
    h | ⟨h, htext⟩ | ⟨s', h, hch, _, _⟩ | ⟨s', h, hch, _, htext⟩
  · rw [h]; exact hQ
  · rw [h]
    intro c hc
    rcases List.mem_append.mp hc with hm | hm
    · exact hQ c hm
    · simp only [List.mem_singleton] at hm
      subst hm
      exact htext
  · rw [h]
    simpa only [Sum.elim_inl, hch] using hQ
  · rw [h]
    simp only [Sum.elim_inl, hch]
    intro c hc
    rcases List.mem_append.mp hc with hm | hm
    · exact hQ c hm
    · simp only [List.mem_singleton] at hm
      subst hm
      exact htext

/-- One loop step preserves "the accumulated chunk ids are exactly
`generate_chunk_id src pg 0, 1, 2, …` in order, with `chunk_index` equal
to the number of accumulated chunks". -/
theorem chunkStep_ids {τ : Type} (tok : Tokenizer τ) (tokens : List τ)
    (src : String) (pg : Int) (cs ov : Int) :
    ∀ s : ChunkLoopState,
      (s.chunk_index = s.chunks.length ∧
        s.chunks.map (fun c => c.id) =
          (List.range s.chunks.length).map (generate_chunk_id src pg)) →
      Sum.elim
        (fun s' => s'.chunk_index = s'.chunks.length ∧
          s'.chunks.map (fun c => c.id) =
            (List.range s'.chunks.length).map (generate_chunk_id src pg))
        (fun r => r.map (fun c => c.id) =
          (List.range r.length).map (generate_chunk_id src pg))
        (chunkStep tok tokens src pg cs ov s) := by
  intro s hQ
  obtain ⟨hidx, hids⟩ := hQ
  rcases chunkStep_cases tok tokens src pg cs ov s with
    h | ⟨h, _⟩ | ⟨s', h, hch, hix, _⟩ | ⟨s', h, hch, hix, _⟩
  · rw [h]; exact hids
  · rw [h]
    simp only [Sum.elim_inr, List.map_append, List.length_append,
      List.length_singleton, List.range_succ, hids, List.map_singleton, hidx]
  · rw [h]
    simp only [Sum.elim_inl, hch, hix]
    exact ⟨hidx, hids⟩
  · rw [h]
    simp only [Sum.elim_inl, hch, hix, List.map_append, List.length_append,
      List.length_singleton, List.range_succ, hids, List.map_singleton, hidx]
    simp [hidx]

/-- Claim C10 (confirmed): (1) an input text that strips to empty yields
`some []` (no error, no empty-text chunk); (2) every chunk in any list
that `split_text_into_chunks` returns has non-empty text; (3) in the
multi-chunk loop, a window whose decoded text strips to empty changes
neither the accumulated chunks nor the chunk index (it is dropped without
consuming a chunk index). -/
theorem c10_chunks_nonempty_text :
    (∀ {τ : Type} (tok : Tokenizer τ) (text src : String) (pg cs ov : Int) (fuel : Nat),
      pyStrip text = "" → split_text_into_chunks fuel tok text src pg cs ov = some []) ∧
    (∀ {τ : Type} (tok : Tokenizer τ) (text src : String) (pg cs ov : Int) (fuel : Nat)
      (l : List TextChunk),
      split_text_into_chunks fuel tok text src pg cs ov = some l →
      ∀ c ∈ l, c.text ≠ "") ∧
    (∀ {τ : Type} (tok : Tokenizer τ) (tokens : List τ) (src : String) (pg cs ov : Int)
      (s : ChunkLoopState),
      pyStrip (tok.decode (pySlice tokens s.start_idx
        (min (s.start_idx + cs) (tokens.length : Int)))) = "" →
      Sum.elim (fun s' => s'.chunks = s.chunks ∧ s'.chunk_index = s.chunk_index)
        (fun r => r = s.chunks) (chunkStep tok tokens src pg cs ov s)) := by
  refine ⟨?_, ?_, ?_⟩
  · intro τ tok text src pg cs ov fuel h
    unfold split_text_into_chunks
    rw [if_pos h]
  · intro τ tok text src pg cs ov fuel l hrun c hc
    unfold split_text_into_chunks at hrun
    by_cases h0 : pyStrip text = ""
    · rw [if_pos h0] at hrun
      cases hrun
      cases hc
    · rw [if_neg h0] at hrun
      dsimp only at hrun
      by_cases h1 : ((tok.encode text).length : Int) ≤ cs
      · rw [if_pos h1] at hrun
        cases hrun
        simp only [List.mem_singleton] at hc
        subst hc
        exact h0
      · rw [if_neg h1] at hrun
        exact chunkLoopFuel_inv tok (tok.encode text) src pg cs ov
          (fun s => ∀ c ∈ s.chunks, c.text ≠ "") (fun r => ∀ c ∈ r, c.text ≠ "")
          (chunkStep_text_nonempty tok (tok.encode text) src pg cs ov)
          fuel ⟨0, 0, []⟩ l (by intro c hc; cases hc) hrun c hc
  · intro τ tok tokens src pg cs ov s hempty
    rcases chunkStep_cases tok tokens src pg cs ov s with
      h | ⟨_, htext⟩ | ⟨s', h, hch, hix, _⟩ | ⟨_, _, _, _, htext⟩
    · rw [h]; rfl
    · exact absurd hempty htext
    · rw [h]
      exact ⟨hch, hix⟩
    · exact absurd hempty htext

set_option maxRecDepth 20000 in
/-- Claim C10, witness: a whitespace-only text yields `some []`; the
chunk produced from the text "ab" has non-empty text; a loop step whose
window decodes to whitespace only leaves the state's chunks and chunk
index unchanged. -/
theorem c10_chunks_nonempty_text_witness :
    split_text_into_chunks 3 charTok " " "d.pdf" 1 800 100 = some [] ∧
    (∀ c ∈ [({ id := generate_chunk_id "d.pdf" 1 0, text := "ab", source_pdf := "d.pdf",
               page := 1, token_count := 2 } : TextChunk)], c.text ≠ "") ∧
    Sum.elim
      (fun s' => s'.chunks = ChunkLoopState.chunks ⟨0, 0, []⟩ ∧
        s'.chunk_index = ChunkLoopState.chunk_index ⟨0, 0, []⟩)
      (fun r => r = ChunkLoopState.chunks ⟨0, 0, []⟩)
      (chunkStep charTok [' ', ' ', ' '] "d.pdf" 1 2 1 ⟨0, 0, []⟩) :=
  ⟨c10_chunks_nonempty_text.1 charTok " " "d.pdf" 1 800 100 3 (by decide),
   c10_chunks_nonempty_text.2.1 charTok "ab" "d.pdf" 1 800 100 3 _ (by decide),
   c10_chunks_nonempty_text.2.2 charTok [' ', ' ', ' '] "d.pdf" 1 2 1 ⟨0, 0, []⟩ (by decide)⟩

/-- Claim C5, amended (the ids are deterministic in source, page and
chunk position only — the `uuid5` suffix is derived from those same three
fields, not from the chunk content): whenever `split_text_into_chunks`
returns a chunk list, the i-th chunk's id is exactly
`generate_chunk_id src pg i`.  In particular re-chunking identical input
reproduces identical ids, and the ids do not depend on the text or the
tokenizer at all. -/
theorem c5_ids_positional {τ : Type} (tok : Tokenizer τ) (text src : String)
    (pg cs ov : Int) (fuel : Nat) (l : List TextChunk)
    (hrun : split_text_into_chunks fuel tok text src pg cs ov = some l) :
    l.map (fun c => c.id) = (List.range l.length).map (generate_chunk_id src pg) := by
  unfold split_text_into_chunks at hrun
  by_cases h0 : pyStrip text = ""
  · rw [if_pos h0] at hrun
    cases hrun
    rfl
  · rw [if_neg h0] at hrun
    dsimp only at hrun
    by_cases h1 : ((tok.encode text).length : Int) ≤ cs
    · rw [if_pos h1] at hrun
      cases hrun
      rfl
    · rw [if_neg h1] at hrun
      exact chunkLoopFuel_inv tok (tok.encode text) src pg cs ov
        (fun s => s.chunk_index = s.chunks.length ∧
          s.chunks.map (fun c => c.id) =
            (List.range s.chunks.length).map (generate_chunk_id src pg))
        (fun r => r.map (fun c => c.id) =
          (List.range r.length).map (generate_chunk_id src pg))
        (chunkStep_ids tok (tok.encode text) src pg cs ov)
        fuel ⟨0, 0, []⟩ l ⟨rfl, rfl⟩ hrun

set_option maxRecDepth 20000 in
/-- Claim C5, witness: the single chunk produced from the 2-token text
"ab" carries id `generate_chunk_id "d.pdf" 1 0`. -/
theorem c5_ids_positional_witness :
    ([({ id := generate_chunk_id "d.pdf" 1 0, text := "ab", source_pdf := "d.pdf",
         page := 1, token_count := 2 } : TextChunk)]).map (fun c => c.id) =
      (List.range 1).map (generate_chunk_id "d.pdf" 1) :=
  c5_ids_positional charTok "ab" "d.pdf" 1 800 100 3 _ (by decide)

set_option maxRecDepth 20000 in
/-- Claim C5, counterexample: two runs over the same source PDF and page
with different page texts ("ab" and "cd") produce chunks whose texts
differ but whose ids (including the `uuid5` suffix, computed here
concretely) coincide — the disambiguation suffix is not derived from the
chunk's content, so chunks with the same (source, page, index) but
different text do NOT get different ids. -/
theorem c5_ids_content_collision :
    (split_text_into_chunks 3 charTok "ab" "doc.pdf" 1 CHUNK_SIZE CHUNK_OVERLAP).map
        (fun l => l.map fun c => c.id) =
      (split_text_into_chunks 3 charTok "cd" "doc.pdf" 1 CHUNK_SIZE CHUNK_OVERLAP).map
        (fun l => l.map fun c => c.id) ∧
    (split_text_into_chunks 3 charTok "ab" "doc.pdf" 1 CHUNK_SIZE CHUNK_OVERLAP).map
        (fun l => l.map fun c => c.text) = some ["ab"] ∧
    (split_text_into_chunks 3 charTok "cd" "doc.pdf" 1 CHUNK_SIZE CHUNK_OVERLAP).map
        (fun l => l.map fun c => c.text) = some ["cd"] :=
  ⟨by decide, by decide, by decide⟩

set_option maxRecDepth 20000 in
/-- Claim C3, counterexample: `split_text_into_chunks` computes
`token_count` from the text BEFORE stripping but stores the text AFTER
stripping.  For the two-token text "a " (whose trailing space is itself a
token, as in `cl100k_base`), the produced chunk has `token_count = 2`
while `count_tokens` of its stored text "a" is 1, so `token_count` does
not equal the tokenizer count of the chunk's `text` field. -/
theorem c3_token_count_mismatch :
    (split_text_into_chunks 3 charTok "a " "doc.pdf" 1 CHUNK_SIZE CHUNK_OVERLAP).map
        (fun l => l.map fun c => (c.token_count, count_tokens charTok c.text)) =
      some [(2, 1)] ∧ (2 : Nat) ≠ 1 :=
  ⟨by decide, by decide⟩

/-- One loop step preserves "every accumulated chunk's `token_count`
equals the length of the token window it was cut from, and its text is
the stripped decoding of that window": an appended chunk gets
`token_count = len(chunk_tokens)` and
`text = strip(decode(chunk_tokens))` for its window slice. -/
theorem chunkStep_window_count {τ : Type} (tok : Tokenizer τ) (tokens : List τ)
    (src : String) (pg : Int) (cs ov : Int) :
    ∀ s : ChunkLoopState,
      (∀ c ∈ s.chunks, ∃ w : List τ,
        c.token_count = w.length ∧ c.text = pyStrip (tok.decode w)) →
      Sum.elim
        (fun s' => ∀ c ∈ s'.chunks, ∃ w : List τ,
          c.token_count = w.length ∧ c.text = pyStrip (tok.decode w))
        (fun r => ∀ c ∈ r, ∃ w : List τ,
          c.token_count = w.length ∧ c.text = pyStrip (tok.decode w))
        (chunkStep tok tokens src pg cs ov s) := by
  intro s hQ
  rcases chunkStep_cases tok tokens src pg cs ov s with
    h | ⟨h, _⟩ | ⟨s', h, hch, _, _⟩ | ⟨s', h, hch, _, _⟩
  · rw [h]; exact hQ
  · rw [h]
    intro c hc
    rcases List.mem_append.mp hc with hm | hm
    · exact hQ c hm
    · simp only [List.mem_singleton] at hm
      subst hm
      exact ⟨pySlice tokens s.start_idx (min (s.start_idx + cs) (tokens.length : Int)),
        rfl, rfl⟩
  · rw [h]
    simpa only [Sum.elim_inl, hch] using hQ
  · rw [h]
    simp only [Sum.elim_inl, hch]
    intro c hc
    rcases List.mem_append.mp hc with hm | hm
    · exact hQ c hm
    · simp only [List.mem_singleton] at hm
      subst hm
      exact ⟨pySlice tokens s.start_idx (min (s.start_idx + cs) (tokens.length : Int)),
        rfl, rfl⟩

/-- Claim C3, amended: every chunk of every list `split_text_into_chunks`
returns — loop-produced chunks included — has `token_count` equal to the
number of tokens of the window it was cut from BEFORE decoding and
whitespace stripping (in the single-chunk path that window is the full
token sequence of the original un-stripped text, stated exactly by the
second conjunct); consequently `token_count` equals the fixed tokenizer's
count of the chunk's stored `text` exactly when encoding the stored text
yields as many tokens as the window held (in particular when stripping
does not change the encoding length). -/
theorem c3_token_count_prestrip :
    (∀ {τ : Type} (tok : Tokenizer τ) (text src : String) (pg cs ov : Int) (fuel : Nat)
      (l : List TextChunk),
      split_text_into_chunks fuel tok text src pg cs ov = some l →
      ∀ c ∈ l, ∃ w : List τ,
        c.token_count = w.length ∧
        (c.text = pyStrip (tok.decode w) ∨ (w = tok.encode text ∧ c.text = pyStrip text)) ∧
        ((tok.encode c.text).length = w.length →
          c.token_count = count_tokens tok c.text)) ∧
    (∀ {τ : Type} (tok : Tokenizer τ) (text src : String) (pg cs ov : Int) (fuel : Nat),
      pyStrip text ≠ "" → ((tok.encode text).length : Int) ≤ cs →
      split_text_into_chunks fuel tok text src pg cs ov =
        some [{ id := generate_chunk_id src pg 0, text := pyStrip text,
                source_pdf := src, page := pg,
                token_count := (tok.encode text).length }]) := by
  constructor
  · intro τ tok text src pg cs ov fuel l hrun c hc
    unfold split_text_into_chunks at hrun
    by_cases h0 : pyStrip text = ""
    · rw [if_pos h0] at hrun
      cases hrun
      cases hc
    · rw [if_neg h0] at hrun
      dsimp only at hrun
      by_cases h1 : ((tok.encode text).length : Int) ≤ cs
      · rw [if_pos h1] at hrun
        cases hrun
        simp only [List.mem_singleton] at hc
        subst hc
        refine ⟨tok.encode text, rfl, Or.inr ⟨rfl, rfl⟩, ?_⟩
        intro hlen
        simpa only [count_tokens] using hlen.symm
      · rw [if_neg h1] at hrun
        obtain ⟨w, hcount, htext⟩ :=
          chunkLoopFuel_inv tok (tok.encode text) src pg cs ov
            (fun s => ∀ c ∈ s.chunks, ∃ w : List τ,
              c.token_count = w.length ∧ c.text = pyStrip (tok.decode w))
            (fun r => ∀ c ∈ r, ∃ w : List τ,
              c.token_count = w.length ∧ c.text = pyStrip (tok.decode w))
            (chunkStep_window_count tok (tok.encode text) src pg cs ov)
            fuel ⟨0, 0, []⟩ l (by intro c hc; cases hc) hrun c hc
        refine ⟨w, hcount, Or.inl htext, ?_⟩
        intro hlen
        simp only [count_tokens]
        rw [hcount, ← hlen]
  · intro τ tok text src pg cs ov fuel hne hfit
    unfold split_text_into_chunks
    rw [if_neg hne]
    dsimp only
    rw [if_pos hfit]

set_option maxRecDepth 20000 in
/-- Claim C3, witness for the amended statement: a loop-produced chunk
(text "abc" with chunk size 2 and overlap 0, whose loop terminates via
the break) satisfies the window property, and the whitespace-free
two-token text "ab" produces exactly the single chunk whose
`token_count` is the token count of the original text. -/
theorem c3_token_count_prestrip_witness :
    (∀ c ∈ [({ id := generate_chunk_id "d.pdf" 4 0, text := "ab", source_pdf := "d.pdf",
               page := 4, token_count := 2 } : TextChunk)],
      ∃ w : List Char,
        c.token_count = w.length ∧
        (c.text = pyStrip (charTok.decode w) ∨
          (w = charTok.encode "abc" ∧ c.text = pyStrip "abc")) ∧
        ((charTok.encode c.text).length = w.length →
          c.token_count = count_tokens charTok c.text)) ∧
    split_text_into_chunks 3 charTok "ab" "d.pdf" 4 800 100 =
      some [{ id := generate_chunk_id "d.pdf" 4 0, text := pyStrip "ab",
              source_pdf := "d.pdf", page := 4,
              token_count := (charTok.encode "ab").length }] :=
  ⟨c3_token_count_prestrip.1 charTok "abc" "d.pdf" 4 2 0 3 _ (by decide),
   c3_token_count_prestrip.2 charTok "ab" "d.pdf" 4 800 100 3 (by decide) (by decide)⟩

/-- Sorting an index-tagged batch response by its index recovers the
enumeration in index order: if the service's response is any permutation
of `(0, e₀), (1, e₁), …`, then `sortByIndex` returns exactly
`(0, e₀), (1, e₁), …`. -/
theorem sortByIndex_eq_enum {E : Type} (l : List (Nat × E)) (xs : List E)
    (hp : l.Perm xs.enum) : sortByIndex l = xs.enum := by
  haveI : IsTotal (Nat × E) (fun a b => a.1 ≤ b.1) := ⟨fun a b => Nat.le_total a.1 b.1⟩
  haveI : IsTrans (Nat × E) (fun a b => a.1 ≤ b.1) := ⟨fun _ _ _ h1 h2 => Nat.le_trans h1 h2⟩
  haveI : IsAntisymm (Nat × E) (fun a b => a.1 < b.1) :=
    ⟨fun _ _ h1 h2 => absurd (Nat.lt_trans h1 h2) (Nat.lt_irrefl _)⟩
  unfold sortByIndex
  have hperm : List.Perm (List.insertionSort (fun a b => a.1 ≤ b.1) l) xs.enum :=
    (List.perm_insertionSort (fun a b => a.1 ≤ b.1) l).trans hp
  have hsorted : (List.insertionSort (fun a b => a.1 ≤ b.1) l).Sorted (fun a b => a.1 ≤ b.1) :=
    List.sorted_insertionSort (fun a b => a.1 ≤ b.1) l
  have hnd : ((List.insertionSort (fun a b => a.1 ≤ b.1) l).map Prod.fst).Nodup := by
    refine ((hperm.map Prod.fst).nodup_iff).mpr ?_
    rw [List.enum_map_fst]
    exact List.nodup_range _
  have hne : List.Pairwise (fun a b => a.1 ≠ b.1)
      (List.insertionSort (fun a b => a.1 ≤ b.1) l) := List.pairwise_map.mp hnd
  have hstrict : List.Pairwise (fun a b => a.1 < b.1)
      (List.insertionSort (fun a b => a.1 ≤ b.1) l) :=
    (hsorted.and hne).imp fun h => Nat.lt_of_le_of_ne h.1 h.2
  have hstrict2 : List.Pairwise (fun a b => a.1 < b.1) xs.enum := by
    refine List.pairwise_map.mp ?_
    rw [List.enum_map_fst]
    exact List.pairwise_lt_range _
  exact List.eq_of_perm_of_sorted hperm hstrict hstrict2

/-- Left fold of list append, with the per-batch results made explicit:
the fold concatenates the mapped batches in batch order. -/
theorem foldl_append_eq_flatten {β E : Type} (f : β → List E) :
    ∀ (bs : List β) (acc : List E),
      bs.foldl (fun a b => a ++ f b) acc = acc ++ (bs.map f).flatten := by
  intro bs
  induction bs with
  | nil => intro acc; simp
  | cons b bs ih =>
    intro acc
    simp only [List.foldl_cons, List.map_cons, List.flatten_cons, ih, List.append_assoc]

/-- Flattening the batches of `batchesByGo` recovers the original list,
as long as the step counter is at least the list length and the batch
size is non-zero. -/
theorem batchesByGo_flatten {α : Type} (k : Nat) (hk : k ≠ 0) :
    ∀ (fuel : Nat) (l : List α), l.length ≤ fuel →
      (batchesByGo k fuel l).flatten = l := by
  intro fuel
  induction fuel with
  | zero =>
    intro l hl
    cases l with
    | nil => rfl
    | cons a t => simp at hl
  | succ n ih =>
    intro l hl
    cases l with
    | nil => rfl
    | cons a t =>
      unfold batchesByGo
      rw [if_neg hk]
      rw [List.flatten_cons]
      rw [ih ((a :: t).drop k)
        (by simp only [List.length_drop, List.length_cons] at hl ⊢; omega)]
      exact List.take_append_drop k (a :: t)

/-- Flattening the batches recovers the original list. -/
theorem batchesBy_flatten {α : Type} (k : Nat) (hk : k ≠ 0) (l : List α) :
    (batchesBy k l).flatten = l :=
  batchesByGo_flatten k hk l.length l le_rfl

/-- Claim C6 (confirmed): whenever the service answers each batch request
with an arbitrary permutation of the index-tagged embeddings of that
batch, `generate_embeddings_batch` returns exactly the embeddings of the
input texts, in input order — for inputs of any length (batching included)
and any per-batch response order. -/
theorem c6_order_preservation {E : Type} (service : List String → List (Nat × E))
    (embed : String → E) (texts : List String)
    (hserv : ∀ b ∈ batchesBy BATCH_SIZE texts, (service b).Perm ((b.map embed).enum)) :
    generate_embeddings_batch service texts = texts.map embed := by
  unfold generate_embeddings_batch
  rw [foldl_append_eq_flatten (fun batch => (sortByIndex (service batch)).map Prod.snd)
    (batchesBy BATCH_SIZE texts) []]
  rw [List.nil_append]
  have hmaps : (batchesBy BATCH_SIZE texts).map
      (fun b => (sortByIndex (service b)).map Prod.snd) =
      (batchesBy BATCH_SIZE texts).map (fun b => b.map embed) := by
    refine List.map_congr_left ?_
    intro b hb
    rw [sortByIndex_eq_enum (service b) (b.map embed) (hserv b hb), List.enum_map_snd]
  rw [hmaps, ← List.map_flatten, batchesBy_flatten BATCH_SIZE (by decide) texts]

/-- Claim C6, witness: a concrete service that returns every batch
reversed still yields the embeddings in input order. -/
theorem c6_order_preservation_witness :
    generate_embeddings_batch
        (fun b => ((b.map fun t => ((t.length : ℚ))).enum).reverse)
        ["x", "yy", "zzz"] =
      [(1 : ℚ), 2, 3] :=
  (c6_order_preservation (fun b => ((b.map fun t => ((t.length : ℚ))).enum).reverse)
      (fun t => ((t.length : ℚ))) ["x", "yy", "zzz"]
      (by decide)).trans (by decide)

/-- Fold of `max` commutes with an outer `max` on the initial value. -/
theorem max_foldl_comm (t : List ℚ) : ∀ a b : ℚ,
    max a (t.foldl max b) = t.foldl max (max a b) := by
  induction t with
  | nil => intro a b; rfl
  | cons x t ih =>
    intro a b
    simp only [List.foldl_cons]
    rw [ih a (max b x), max_assoc]

/-- Python's `max` over a non-empty sequence, as the left fold used in
`check_retrieval_quality`, agrees with `List.maximum`. -/
theorem maximum_eq_foldl (rest : List ℚ) : ∀ c : ℚ,
    (c :: rest).maximum = some (rest.foldl max c) := by
  induction rest with
  | nil =>
    intro c
    rw [List.maximum_cons, List.maximum_nil, List.foldl_nil]
    rfl
  | cons r t ih =>
    intro c
    rw [List.maximum_cons, ih r, List.foldl_cons]
    show max (c : WithBot ℚ) (some (t.foldl max r)) = some (t.foldl max (max c r))
    rw [← max_foldl_comm t c r]
    exact (WithBot.coe_max c (t.foldl max r)).symm

/-- Claim C7 (confirmed): the retrieval gate reports usable evidence when
the maximum similarity score equals the threshold 0.3 exactly (inclusive
boundary), reports insufficient evidence when the maximum score is
strictly below 0.3, and reports insufficient evidence on an empty
retrieval result. -/
theorem c7_quality_gate_boundary (chunks : List RetrievedChunk) :
    (chunks = [] → check_retrieval_quality chunks = false) ∧
    ((chunks.map fun c => c.score).maximum = some SIMILARITY_THRESHOLD →
      check_retrieval_quality chunks = true) ∧
    (∀ q : ℚ, (chunks.map fun c => c.score).maximum = some q →
      q < SIMILARITY_THRESHOLD → check_retrieval_quality chunks = false) := by
  refine ⟨?_, ?_, ?_⟩
  · intro h
    subst h
    rfl
  · intro hmax
    cases chunks with
    | nil => simp [List.maximum_nil] at hmax
    | cons c rest =>
      rw [List.map_cons] at hmax
      rw [maximum_eq_foldl] at hmax
      have hfold : (rest.map fun x => x.score).foldl max c.score = SIMILARITY_THRESHOLD :=
        Option.some_injective _ hmax
      unfold check_retrieval_quality
      rw [List.foldl_map] at hfold
      rw [decide_eq_true_eq]
      rw [hfold]
  · intro q hmax hlt
    cases chunks with
    | nil => rfl
    | cons c rest =>
      rw [List.map_cons] at hmax
      rw [maximum_eq_foldl] at hmax
      have hfold : (rest.map fun x => x.score).foldl max c.score = q :=
        Option.some_injective _ hmax
      unfold check_retrieval_quality
      rw [List.foldl_map] at hfold
      rw [decide_eq_false_iff_not]
      rw [hfold]
      exact not_le.mpr hlt

/-- Claim C7, witness: a best score of exactly 3/10 passes the gate, a
best score of 1/5 fails it, and the empty result fails it. -/
theorem c7_quality_gate_boundary_witness :
    check_retrieval_quality [] = false ∧
    check_retrieval_quality
      [{ id := "a", text := "t", source_pdf := "s", page := 1, score := 3 / 10 },
       { id := "b", text := "u", source_pdf := "s", page := 2, score := 1 / 5 }] = true ∧
    check_retrieval_quality
      [{ id := "b", text := "u", source_pdf := "s", page := 2, score := 1 / 5 }] = false :=
  ⟨(c7_quality_gate_boundary []).1 rfl,
   (c7_quality_gate_boundary _).2.1
     (by rw [List.map_cons, List.map_cons, List.map_nil, maximum_eq_foldl]; norm_num
         [SIMILARITY_THRESHOLD]),
   (c7_quality_gate_boundary _).2.2 (1 / 5)
     (by rw [List.map_cons, List.map_nil, maximum_eq_foldl]; norm_num)
     (by norm_num [SIMILARITY_THRESHOLD])⟩

/-- The running total of `upsert_chunks` equals the initial accumulator
plus the number of vectors in all batches. -/
theorem foldl_add_length {α : Type} :
    ∀ (bs : List (List α)) (acc : Nat),
      bs.foldl (fun t b => t + b.length) acc = acc + bs.flatten.length := by
  intro bs
  induction bs with
  | nil => intro acc; simp
  | cons b bs ih =>
    intro acc
    simp only [List.foldl_cons, List.flatten_cons, List.length_append, ih]
    omega

/-- Claim C8 (confirmed): with mismatched chunk/embedding counts,
`upsert_chunks` raises the precondition `ValueError` before building or
sending any vector (the write log exists only on the success path, so no
partial batch is upserted); with matching counts it returns the total
count `len(chunks)` together with the batches sent, and flattening those
batches yields exactly one vector entry per (chunk, embedding) pair. -/
theorem c8_upsert_precondition (chunks : List TextChunk) (embeddings : List (List ℚ)) :
    (chunks.length ≠ embeddings.length →
      upsert_chunks chunks embeddings =
        Except.error "Number of chunks must match number of embeddings") ∧
    (chunks.length = embeddings.length →
      upsert_chunks chunks embeddings =
        Except.ok (chunks.length,
          batchesBy UPSERT_BATCH_SIZE ((chunks.zip embeddings).map fun p =>
            ({ id := p.1.id, values := p.2,
               metadata := { text := p.1.text, source_pdf := p.1.source_pdf,
                             page := p.1.page } : PineconeVector }))) ∧
      (batchesBy UPSERT_BATCH_SIZE ((chunks.zip embeddings).map fun p =>
          ({ id := p.1.id, values := p.2,
             metadata := { text := p.1.text, source_pdf := p.1.source_pdf,
                           page := p.1.page } : PineconeVector }))).flatten =
        (chunks.zip embeddings).map fun p =>
          ({ id := p.1.id, values := p.2,
             metadata := { text := p.1.text, source_pdf := p.1.source_pdf,
                           page := p.1.page } : PineconeVector })) := by
  refine ⟨?_, ?_⟩
  · intro h
    unfold upsert_chunks
    rw [if_pos h]
  · intro h
    refine ⟨?_, batchesBy_flatten UPSERT_BATCH_SIZE (by decide) _⟩
    unfold upsert_chunks
    rw [if_neg (fun hne => hne h)]
    dsimp only
    rw [foldl_add_length, batchesBy_flatten UPSERT_BATCH_SIZE (by decide),
      List.length_map, List.length_zip, h, Nat.min_self, Nat.zero_add]

/-- Claim C8, witness: a mismatched call errors; a matched two-chunk call
returns count 2 with both pairs sent in one batch. -/
theorem c8_upsert_precondition_witness :
    upsert_chunks
        [{ id := "i1", text := "t1", source_pdf := "s.pdf", page := 1, token_count := 1 }] [] =
      Except.error "Number of chunks must match number of embeddings" ∧
    upsert_chunks
        [{ id := "i1", text := "t1", source_pdf := "s.pdf", page := 1, token_count := 1 },
         { id := "i2", text := "t2", source_pdf := "s.pdf", page := 2, token_count := 1 }]
        [[(1 : ℚ)], [(2 : ℚ), 3]] =
      Except.ok (2,
        [[({ id := "i1", values := [(1 : ℚ)],
             metadata := { text := "t1", source_pdf := "s.pdf", page := 1 } } : PineconeVector),
          { id := "i2", values := [(2 : ℚ), 3],
            metadata := { text := "t2", source_pdf := "s.pdf", page := 2 } }]]) :=
  ⟨(c8_upsert_precondition _ _).1 (by decide),
   ((c8_upsert_precondition _ _).2 rfl).1.trans (by rfl)⟩

/-- Claim C9 (confirmed): with `force` unset and the emptiness check
reporting a non-empty store (and the clients constructible), the run
returns the skipped outcome `False` having issued zero embedding-service
requests and zero vector-store writes. -/
theorem c9_skip_nonempty_store {τ : Type} (fuel : Nat) (env : IndexerEnv τ)
    (hp : env.pineconeKeySet = true) (ho : env.openrouterKeySet = true)
    (he : env.indexEmpty = false) :
    run_indexing fuel env false = some (Except.ok (false, ⟨0, 0⟩)) := by
  unfold run_indexing
  rw [hp, ho, he]
  simp

/-- Claim C9, witness: a concrete environment with a non-empty store. -/
theorem c9_skip_nonempty_store_witness :
    run_indexing 3
        ({ pineconeKeySet := true, openrouterKeySet := true, indexEmpty := false,
           tok := charTok, embedService := fun _ => [], documents := [] } : IndexerEnv Char)
        false =
      some (Except.ok (false, ⟨0, 0⟩)) :=
  c9_skip_nonempty_store 3 _ rfl rfl rfl
